import Mathlib

set_option linter.unusedVariables false

/-!
Verification of the 2D drone simulator (`2D_drone_sim.c`).

The program integrates four coupled scalar ODEs (two motor currents, two
motor angular velocities, drone angular rate, drone attitude) with a
per-step state snapshot and a variadic Runge-Kutta stepper.  All machine
arithmetic is `double`; the development embeds it over `ℚ`, which models
the exact real arithmetic the equations denote.  Each definition mirrors
one C function or constant of the source, keeping its name.
-/

namespace DroneSim

/-- `const double Lm = 3.7e-4;` (inductance, H). -/
def Lm : ℚ := 37 / 100000

/-- `const double Rm = 1.2e-1;` (resistance, Ohm). -/
def Rm : ℚ := 12 / 100

/-- `const double Km = 3.3e-3;` (torque constant, Nm/A). -/
def Km : ℚ := 33 / 10000

/-- `const double Jm = 8.1e-6;` (motor moment of inertia, kg m²). -/
def Jm : ℚ := 81 / 10000000

/-- `const double Cq = 3.0e-8;` (propeller torque coefficient). -/
def Cq : ℚ := 3 / 100000000

/-- `const double Dm = 0.0;` (viscous damping coefficient). -/
def Dm : ℚ := 0

/-- `const double Ct = 3.5e-6;` (thrust coefficient). -/
def Ct : ℚ := 35 / 10000000

/-- `const double lcpt = 0.09;` (drone arm length, m). -/
def lcpt : ℚ := 9 / 100

/-- `const double Jcpt = 6.0e-3;` (drone moment of inertia). -/
def Jcpt : ℚ := 6 / 1000

/-- `const double Md = 0.35;` (drone mass, unused by the dynamics). -/
def Md : ℚ := 35 / 100

/-- `const double End_time = 0.5;` (simulated end time, s). -/
def End_time : ℚ := 1 / 2

/-- `#define RADPS2RPM (60.0/2.0/3.14159)` — note the literal `3.14159`. -/
def RADPS2RPM : ℚ := 60 / 2 / (314159 / 100000)

/-- `double h = 0.0001;` — the fixed step size local to `drone_sim`. -/
def hstep : ℚ := 1 / 10000

/-- `i_dot`: motor electrical equation, `(u - Rm i - Km omega)/Lm`,
with `value[0] = omega`, `value[1] = u`. -/
def i_dot (i t : ℚ) (value : List ℚ) : ℚ :=
  let omega := value.getD 0 0
  let u := value.getD 1 0
  (u - Rm * i - Km * omega) / Lm

/-- `omega_dot`: motor mechanical equation, `(Km i - Dm omega - TL)/Jm`
with load torque `TL = Cq omega²` and `value[0] = i`. -/
def omega_dot (omega t : ℚ) (value : List ℚ) : ℚ :=
  let i := value.getD 0 0
  let TL := Cq * omega * omega
  (Km * i - Dm * omega - TL) / Jm

/-- `q_dot`: drone rate equation, `(T_R - T_L) lcpt / Jcpt` with thrusts
`T = Ct omega²`, `value[0] = omega_R`, `value[1] = omega_L`. -/
def q_dot (q t : ℚ) (value : List ℚ) : ℚ :=
  let omega_R := value.getD 0 0
  let omega_L := value.getD 1 0
  let T_R := Ct * omega_R * omega_R
  let T_L := Ct * omega_L * omega_L
  (T_R - T_L) * lcpt / Jcpt

/-- `theta_dot`: attitude equation, `dtheta/dt = q`, `value[0] = q`. -/
def theta_dot (theta t : ℚ) (value : List ℚ) : ℚ :=
  let q := value.getD 0 0
  q

/-- `rk4` exactly as implemented: note the stage offsets
`x + 0.5*h*k1`, `x + 0.5*h*k2`, `x + h*k3`, in which each `k` already
carries a factor of `h`.  The variadic `value` array is a list. -/
def rk4 (dxdt : ℚ → ℚ → List ℚ → ℚ) (x t h : ℚ) (value : List ℚ) : ℚ :=
  let k1 := h * dxdt x t value
  let k2 := h * dxdt (x + 1/2 * h * k1) (t + 1/2 * h) value
  let k3 := h * dxdt (x + 1/2 * h * k2) (t + 1/2 * h) value
  let k4 := h * dxdt (x + h * k3) (t + h) value
  x + (k1 + k2 * 2 + k3 * 2 + k4) / 6

/-- The classical RK4 update as the specification (§4.1) writes it:
stage offsets `x + k1/2`, `x + k2/2`, `x + k3` with no extra factor of
`h`.  Given only for comparison with `rk4` as implemented. -/
def rk4_spec (dxdt : ℚ → ℚ → List ℚ → ℚ) (x t h : ℚ) (value : List ℚ) : ℚ :=
  let k1 := h * dxdt x t value
  let k2 := h * dxdt (x + k1 / 2) (t + h / 2) value
  let k3 := h * dxdt (x + k2 / 2) (t + h / 2) value
  let k4 := h * dxdt (x + k3) (t + h) value
  x + (k1 + 2 * k2 + 2 * k3 + k4) / 6

/-- `motor_t`: current `i`, angular velocity `omega`, voltage `u`, and
the snapshot fields `i_`, `omega_`, `u_` written by `save_state`. -/
structure motor_t where
  i : ℚ
  omega : ℚ
  u : ℚ
  i_ : ℚ
  omega_ : ℚ
  u_ : ℚ
deriving DecidableEq

/-- `drone_t`: angular rate `q`, attitude `theta`, snapshots `q_`, `theta_`. -/
structure drone_t where
  q : ℚ
  theta : ℚ
  q_ : ℚ
  theta_ : ℚ
deriving DecidableEq

/-- The full mutable state of `drone_sim`: `motor[RIGHT]`, `motor[LEFT]`
and the drone, as one record. -/
structure SimState where
  right : motor_t
  left : motor_t
  drone : drone_t
deriving DecidableEq

/-- The motor part of `save_state`: `i_ = i; omega_ = omega; u_ = u`. -/
def save_state_motor (m : motor_t) : motor_t :=
  { m with i_ := m.i, omega_ := m.omega, u_ := m.u }

/-- `save_state`: copy every current field into its snapshot field, for
both motors and the drone. -/
def save_state (s : SimState) : SimState :=
  { right := save_state_motor s.right
    left := save_state_motor s.left
    drone := { s.drone with q_ := s.drone.q, theta_ := s.drone.theta } }

/-- The per-motor body of the update loop in `drone_sim`:
`motor.i = rk4(i_dot, motor.i_, t, h, 2, motor.omega_, motor.u_)` then
`motor.omega = rk4(omega_dot, motor.omega_, t, h, 1, motor.i_)`. -/
def update_motor (m : motor_t) (t : ℚ) : motor_t :=
  { m with
    i := rk4 i_dot m.i_ t hstep [m.omega_, m.u_]
    omega := rk4 omega_dot m.omega_ t hstep [m.i_] }

/-- One iteration body of the `while` loop in `drone_sim` (before the
time increment): `save_state`, then both motors, then `drone.q` from the
snapshot motor velocities, then `drone.theta` from the snapshot `q_`. -/
def sim_step (t : ℚ) (s : SimState) : SimState :=
  let s1 := save_state s
  let s2 := { s1 with right := update_motor s1.right t, left := update_motor s1.left t }
  { s2 with drone :=
      { s2.drone with
        q := rk4 q_dot s2.drone.q_ t hstep [s2.right.omega_, s2.left.omega_]
        theta := rk4 theta_dot s2.drone.theta_ t hstep [s2.drone.q_] } }

/-- The state initialisation of `drone_sim`, with the two applied
voltages as parameters (the source hard-codes `7.5` and `7.4`).  The C
code leaves the snapshot fields uninitialised until the first
`save_state`; they are set to `0` here and are never read before being
overwritten. -/
def init_state (uR uL : ℚ) : SimState :=
  { right := { i := 0, omega := 0, u := uR, i_ := 0, omega_ := 0, u_ := 0 }
    left := { i := 0, omega := 0, u := uL, i_ := 0, omega_ := 0, u_ := 0 }
    drone := { q := 0, theta := 0, q_ := 0, theta_ := 0 } }

/-- The `while (t < End_time)` loop of `drone_sim`, with explicit fuel
(the loop in the source terminates after finitely many iterations, so
any sufficiently large fuel reproduces it).  Each iteration emits the
record `(t + h, state after the step)`. -/
def sim_loop : ℕ → ℚ → SimState → List (ℚ × SimState)
  | 0, _, _ => []
  | fuel + 1, t, s =>
    if t < End_time then
      let s' := sim_step t s
      (t + hstep, s') :: sim_loop fuel (t + hstep) s'
    else []

/-- `drone_sim` as the list of emitted `(time, state)` records: the
initial record at `t = 0` followed by one record per loop iteration. -/
def drone_sim (uR uL : ℚ) (fuel : ℕ) : List (ℚ × SimState) :=
  (0, init_state uR uL) :: sim_loop fuel 0 (init_state uR uL)

/-- `print_state` as the 7-tuple of printed values:
time, both currents, both angular velocities converted by `RADPS2RPM`,
drone rate, drone attitude. -/
def print_state (t : ℚ) (mR mL : motor_t) (d : drone_t) : List ℚ :=
  [t, mR.i, mL.i, mR.omega * RADPS2RPM, mL.omega * RADPS2RPM, d.q, d.theta]

/-- The reported output of the whole run: `print_state` applied to every
emitted record. -/
def sim_output (uR uL : ℚ) (fuel : ℕ) : List (List ℚ) :=
  (drone_sim uR uL fuel).map fun r => print_state r.1 r.2.right r.2.left r.2.drone

/-- Configuration record over the parameters the specification lists as
the configuration surface; the C source hard-codes all of them. -/
structure Config where
  Lm : ℚ
  Rm : ℚ
  Km : ℚ
  Jm : ℚ
  Cq : ℚ
  Dm : ℚ
  Ct : ℚ
  lcpt : ℚ
  Jcpt : ℚ
  uR : ℚ
  uL : ℚ
  hstep : ℚ
  End_time : ℚ
deriving DecidableEq

/-- Modelled from the spec: the C source has no configuration input and
no validation code (every parameter is a hard-coded constant), so the
configuration validation required by spec §7 is absent from the source.
This models it faithfully to the spec's words: non-positive step size,
end time, inductance, motor inertia, or drone inertia is rejected with a
descriptive configuration error before the simulation starts. -/
def validateConfig (c : Config) : Except String Config :=
  if c.hstep ≤ 0 then .error "step size must be positive"
  else if c.End_time ≤ 0 then .error "end time must be positive"
  else if c.Lm ≤ 0 then .error "inductance must be positive"
  else if c.Jm ≤ 0 then .error "motor inertia must be positive"
  else if c.Jcpt ≤ 0 then .error "drone inertia must be positive"
  else .ok c

/-- The nominal configuration: exactly the constants of the C source. -/
def nominalConfig : Config :=
  { Lm := Lm, Rm := Rm, Km := Km, Jm := Jm, Cq := Cq, Dm := Dm, Ct := Ct
    lcpt := lcpt, Jcpt := Jcpt, uR := 75/10, uL := 74/10
    hstep := hstep, End_time := End_time }

/-! ## Helper lemmas -/

/-- Once `End_time ≤ t` the loop body never runs: nothing more is emitted. -/
lemma sim_loop_stop (fuel : ℕ) (t : ℚ) (s : SimState) (ht : End_time ≤ t) :
    sim_loop fuel t s = [] := by
  cases fuel with
  | zero => rfl
  | succ f => simp [sim_loop, not_lt.mpr ht]

/-- While-loop unrolling for the emitted times: if from time `t` exactly
`n` more iterations run (characterised by `End_time ≤ t + n·h` and every
earlier time below `End_time`), the emitted times are
`t + h, t + 2h, …, t + n·h`, for any sufficient fuel. -/
lemma sim_loop_times (n : ℕ) :
    ∀ (fuel : ℕ), n ≤ fuel → ∀ (t : ℚ) (s : SimState),
      End_time ≤ t + n * hstep →
      (∀ m : ℕ, m < n → t + m * hstep < End_time) →
      (sim_loop fuel t s).map Prod.fst
        = (List.range n).map fun k : ℕ => t + ((k : ℚ) + 1) * hstep := by
  induction n with
  | zero =>
    intro fuel _ t s hEnd _
    have ht : ¬ t < End_time := not_lt.mpr (by simpa using hEnd)
    cases fuel with
    | zero => rfl
    | succ f => simp [sim_loop, ht]
  | succ n ih =>
    intro fuel hfuel t s hEnd hlt
    obtain ⟨f, rfl⟩ : ∃ f, fuel = f + 1 := ⟨fuel - 1, by omega⟩
    have ht : t < End_time := by
      have := hlt 0 (Nat.succ_pos n)
      simpa using this
    rw [sim_loop, if_pos ht]
    simp only [List.map_cons]
    rw [ih f (by omega) (t + hstep) (sim_step t s)
      (by push_cast at hEnd ⊢; linarith)
      (by
        intro m hm
        have := hlt (m + 1) (by omega)
        push_cast at this ⊢
        linarith)]
    rw [List.range_succ_eq_map, List.map_cons, List.map_map]
    congr 1
    · push_cast; ring
    · congr 1
      funext k
      simp only [Function.comp_apply]
      push_cast
      ring

/-- With `h = 1/10000` and `End_time = 1/2`, every time before the
5000th step is still below `End_time`. -/
lemma nat_lt_5000_times (m : ℕ) (hm : m < 5000) : (0 : ℚ) + m * hstep < End_time := by
  have h1 : (m : ℚ) < 5000 := by exact_mod_cast hm
  simp only [hstep, End_time]
  linarith

/-- Reshaping of the target time sequence `0, h, …, 5000·h`. -/
lemma range_5001_times :
    (List.range 5001).map (fun k : ℕ => (k : ℚ) * hstep)
      = 0 :: (List.range 5000).map fun k : ℕ => (0 : ℚ) + ((k : ℚ) + 1) * hstep := by
  have h5 : (5001 : ℕ) = 5000 + 1 := by norm_num
  rw [h5, List.range_succ_eq_map, List.map_cons, List.map_map]
  refine List.cons_eq_cons.mpr ⟨by norm_num, ?_⟩
  congr 1
  funext k
  simp only [Function.comp_apply]
  push_cast
  ring

/-- The complete emitted time sequence of the run is `0, h, 2h, …, 5000·h`. -/
lemma drone_sim_times (uR uL : ℚ) (fuel : ℕ) (hf : 5000 ≤ fuel) :
    (drone_sim uR uL fuel).map Prod.fst
      = (List.range 5001).map fun k : ℕ => (k : ℚ) * hstep := by
  have hmain := sim_loop_times 5000 fuel hf 0 (init_state uR uL)
    (by norm_num [End_time, hstep]) nat_lt_5000_times
  rw [drone_sim, List.map_cons, hmain]
  exact range_5001_times.symm

/-- Invariant propagation along the loop: if `P` is preserved by
`sim_step` and entails `Q` of the stepped state, then `Q` holds of the
state in every emitted loop record. -/
lemma sim_loop_post (P Q : SimState → Prop)
    (hst : ∀ t s, P s → P (sim_step t s) ∧ Q (sim_step t s)) :
    ∀ (fuel : ℕ) (t : ℚ) (s : SimState), P s → ∀ r ∈ sim_loop fuel t s, Q r.2 := by
  intro fuel
  induction fuel with
  | zero => intro t s _ r hr; simp [sim_loop] at hr
  | succ f ih =>
    intro t s hs r hr
    rw [sim_loop] at hr
    by_cases h : t < End_time
    · rw [if_pos h] at hr
      simp only at hr
      rcases List.mem_cons.mp hr with h1 | h2
      · rw [h1]
        exact (hst t s hs).2
      · exact ih (t + hstep) (sim_step t s) ((hst t s hs).1) r h2
    · rw [if_neg h] at hr
      simp at hr

/-- With both auxiliary angular velocities equal, the drone-rate update
is the identity: the differential torque vanishes at every stage. -/
lemma q_dot_same (x t h a : ℚ) : rk4 q_dot x t h [a, a] = x := by
  simp [rk4, q_dot]

/-- One step preserves the symmetry invariant: equal motor states and
zero drone rate. -/
lemma step_symm (t : ℚ) (s : SimState) (h1 : s.right = s.left) (h2 : s.drone.q = 0) :
    (sim_step t s).right = (sim_step t s).left ∧ (sim_step t s).drone.q = 0 := by
  constructor
  · show update_motor (save_state_motor s.right) t = update_motor (save_state_motor s.left) t
    rw [h1]
  · show rk4 q_dot s.drone.q t hstep
      [(update_motor (save_state_motor s.right) t).omega_,
       (update_motor (save_state_motor s.left) t).omega_] = 0
    rw [h1, h2]
    exact q_dot_same 0 t hstep _

/-! ## Claim theorems -/

/-- Claim C1 (code bug): the claim states the RK4 stepper computes
`k2 = h·f(x + k1/2, …)`, `k3 = h·f(x + k2/2, …)`, `k4 = h·f(x + k3, …)`.
The implemented `rk4` instead offsets the stages by `0.5·h·k1`,
`0.5·h·k2` and `h·k3` — an extra factor of `h`, since each `k` already
carries one — contradicting the source's own description of the function
as the Runge-Kutta method.  At the derivative `f(x,t,aux) = x` with
`x = 1`, `t = 0`, `h = 1/10`, the implemented stepper and the claimed
formula give different values (the claimed formula gives the classical
RK4 value `265241/240000 ≈ e^(1/10)`). -/
theorem rk4_extra_h_factor :
    rk4 (fun x _ _ => x) 1 0 (1/10) [] = 264120401 / 240000000
    ∧ rk4_spec (fun x _ _ => x) 1 0 (1/10) [] = 265241 / 240000
    ∧ rk4 (fun x _ _ => x) 1 0 (1/10) [] ≠ rk4_spec (fun x _ _ => x) 1 0 (1/10) [] := by
  refine ⟨by norm_num [rk4], by norm_num [rk4_spec], by norm_num [rk4, rk4_spec]⟩

/-- Claim C2: the four derivative functions compute exactly
`(u − Rm·i − Km·ω)/Lm`, `(Km·i − Dm·ω − Cq·ω²)/Jm`,
`(Ct·ωR² − Ct·ωL²)·lcpt/Jcpt` and `q`, over their auxiliary vectors. -/
theorem derivative_functions_forms (i t omega u q omegaR omegaL theta : ℚ) :
    i_dot i t [omega, u] = (u - Rm * i - Km * omega) / Lm
    ∧ omega_dot omega t [i] = (Km * i - Dm * omega - Cq * omega^2) / Jm
    ∧ q_dot q t [omegaR, omegaL] = (Ct * omegaR^2 - Ct * omegaL^2) * lcpt / Jcpt
    ∧ theta_dot theta t [q] = q := by
  refine ⟨rfl, ?_, ?_, rfl⟩
  · simp [omega_dot]; ring
  · simp [q_dot]; ring

/-- Claim C3: within one step, every auxiliary coupling value and every
initial value `x` of the six `rk4` calls is the snapshot taken at the
start of the step — i.e. the pre-step value of the corresponding state —
never a value already advanced within the step; and `save_state` indeed
copies each current value into its snapshot field. -/
theorem snapshot_discipline (t : ℚ) (s : SimState) :
    (sim_step t s).right.i = rk4 i_dot s.right.i t hstep [s.right.omega, s.right.u]
    ∧ (sim_step t s).right.omega = rk4 omega_dot s.right.omega t hstep [s.right.i]
    ∧ (sim_step t s).left.i = rk4 i_dot s.left.i t hstep [s.left.omega, s.left.u]
    ∧ (sim_step t s).left.omega = rk4 omega_dot s.left.omega t hstep [s.left.i]
    ∧ (sim_step t s).drone.q = rk4 q_dot s.drone.q t hstep [s.right.omega, s.left.omega]
    ∧ (sim_step t s).drone.theta = rk4 theta_dot s.drone.theta t hstep [s.drone.q]
    ∧ (save_state s).right.i_ = s.right.i
    ∧ (save_state s).right.omega_ = s.right.omega
    ∧ (save_state s).right.u_ = s.right.u
    ∧ (save_state s).left.i_ = s.left.i
    ∧ (save_state s).left.omega_ = s.left.omega
    ∧ (save_state s).left.u_ = s.left.u
    ∧ (save_state s).drone.q_ = s.drone.q
    ∧ (save_state s).drone.theta_ = s.drone.theta :=
  ⟨rfl, rfl, rfl, rfl, rfl, rfl, rfl, rfl, rfl, rfl, rfl, rfl, rfl, rfl⟩

/-- Claim C4: for any fuel covering the whole run, the emitted times are
`0, h, 2h, …`: a strictly increasing arithmetic sequence of common
difference `h = 1/10000`; the last emitted time equals `End_time`
(the first one `≥ End_time`), every earlier one is `< End_time`, and
once `End_time ≤ t` the loop emits nothing further. -/
theorem emitted_times_arithmetic (uR uL : ℚ) (fuel : ℕ) (hf : 5000 ≤ fuel) :
    ((drone_sim uR uL fuel).map Prod.fst
        = (List.range 5001).map fun k : ℕ => (k : ℚ) * hstep)
    ∧ List.Chain' (fun a b : ℚ => a < b ∧ b = a + hstep)
        ((drone_sim uR uL fuel).map Prod.fst)
    ∧ ((drone_sim uR uL fuel).map Prod.fst).getLast? = some End_time
    ∧ (∀ x ∈ ((drone_sim uR uL fuel).map Prod.fst).dropLast, x < End_time)
    ∧ (∀ (t : ℚ) (s : SimState), End_time ≤ t → sim_loop fuel t s = []) := by
  refine ⟨drone_sim_times uR uL fuel hf, ?_, ?_, ?_, fun t s ht => sim_loop_stop fuel t s ht⟩
  · rw [drone_sim_times uR uL fuel hf]
    rw [List.chain'_map]
    have h5 : (5001 : ℕ) = 5000 + 1 := by norm_num
    rw [h5, List.chain'_range_succ]
    intro m hm
    constructor
    · have : (0:ℚ) ≤ (m:ℚ) := Nat.cast_nonneg m
      push_cast
      simp only [hstep]
      linarith
    · push_cast
      ring
  · rw [drone_sim_times uR uL fuel hf]
    have h5 : (5001 : ℕ) = 5000 + 1 := by norm_num
    rw [h5, List.range_succ, List.map_append, List.map_singleton]
    rw [List.getLast?_concat]
    norm_num [hstep, End_time]
  · rw [drone_sim_times uR uL fuel hf]
    have h5 : (5001 : ℕ) = 5000 + 1 := by norm_num
    rw [h5, List.range_succ, List.map_append]
    rw [List.map_singleton, List.dropLast_concat]
    intro x hx
    simp only [List.mem_map, List.mem_range] at hx
    obtain ⟨k, hk, rfl⟩ := hx
    have := nat_lt_5000_times k hk
    linarith

/-- Witness for C4: the theorem applied at the nominal voltages with
fuel exactly 5000. -/
theorem emitted_times_arithmetic_witness :
    (drone_sim (75/10) (74/10) 5000).map Prod.fst
      = (List.range 5001).map fun k : ℕ => (k : ℚ) * hstep :=
  (emitted_times_arithmetic (75/10) (74/10) 5000 (by norm_num)).1

/-- Claim C5: initialization zeroes both motors' current and angular
velocity, sets the applied voltages to the configured constants
(`7.5` right, `7.4` left), zeroes drone `q` and `theta`, and the run's
first emitted record is the initial state at time `0`, before any step. -/
theorem initialization_and_first_emission (fuel : ℕ) :
    (init_state (75/10) (74/10)).right.i = 0
    ∧ (init_state (75/10) (74/10)).right.omega = 0
    ∧ (init_state (75/10) (74/10)).right.u = 75/10
    ∧ (init_state (75/10) (74/10)).left.i = 0
    ∧ (init_state (75/10) (74/10)).left.omega = 0
    ∧ (init_state (75/10) (74/10)).left.u = 74/10
    ∧ (init_state (75/10) (74/10)).drone.q = 0
    ∧ (init_state (75/10) (74/10)).drone.theta = 0
    ∧ (drone_sim (75/10) (74/10) fuel).head? = some (0, init_state (75/10) (74/10)) :=
  ⟨rfl, rfl, rfl, rfl, rfl, rfl, rfl, rfl, rfl⟩

/-- Claim C6 (spec-modelled): configuration validation rejects any
configuration with non-positive step size, end time, inductance, motor
inertia, or drone inertia with a descriptive (non-empty) error, accepts
every configuration in which all five are positive, and accepts the
nominal configuration of the source. -/
theorem config_validation (c : Config) :
    (c.hstep ≤ 0 ∨ c.End_time ≤ 0 ∨ c.Lm ≤ 0 ∨ c.Jm ≤ 0 ∨ c.Jcpt ≤ 0 →
      ∃ msg, validateConfig c = .error msg ∧ msg ≠ "")
    ∧ (0 < c.hstep → 0 < c.End_time → 0 < c.Lm → 0 < c.Jm → 0 < c.Jcpt →
      validateConfig c = .ok c)
    ∧ validateConfig nominalConfig = .ok nominalConfig := by
  refine ⟨?_, ?_, ?_⟩
  · intro hbad
    unfold validateConfig
    rcases hbad with h | h | h | h | h
    · exact ⟨_, by rw [if_pos h], by simp⟩
    · by_cases h1 : c.hstep ≤ 0
      · exact ⟨_, by rw [if_pos h1], by simp⟩
      · exact ⟨_, by rw [if_neg h1, if_pos h], by simp⟩
    all_goals {
      by_cases h1 : c.hstep ≤ 0
      · exact ⟨_, by rw [if_pos h1], by simp⟩
      · by_cases h2 : c.End_time ≤ 0
        · exact ⟨_, by rw [if_neg h1, if_pos h2], by simp⟩
        · by_cases h3 : c.Lm ≤ 0
          · exact ⟨_, by rw [if_neg h1, if_neg h2, if_pos h3], by simp⟩
          · by_cases h4 : c.Jm ≤ 0
            · exact ⟨_, by rw [if_neg h1, if_neg h2, if_neg h3, if_pos h4], by simp⟩
            · by_cases h5 : c.Jcpt ≤ 0
              · exact ⟨_, by rw [if_neg h1, if_neg h2, if_neg h3, if_neg h4, if_pos h5], by simp⟩
              · exact absurd h (by first | exact h3 | exact h4 | exact h5) }
  · intro p1 p2 p3 p4 p5
    unfold validateConfig
    rw [if_neg (not_le.mpr p1), if_neg (not_le.mpr p2), if_neg (not_le.mpr p3),
        if_neg (not_le.mpr p4), if_neg (not_le.mpr p5)]
  · norm_num [validateConfig, nominalConfig, hstep, End_time, Lm, Jm, Jcpt]

/-- Witness for C6: a zero step size is rejected with a descriptive error. -/
theorem config_validation_witness :
    ∃ msg, validateConfig { nominalConfig with hstep := 0 } = .error msg ∧ msg ≠ "" :=
  (config_validation { nominalConfig with hstep := 0 }).1 (Or.inl (by norm_num))

/-- Claim C7: with equal applied voltages (motor parameters are shared
constants, hence identical), starting from the zero initial state, the
two motors' states are equal and the drone rate `q` is exactly `0` in
every emitted record — exact arithmetic over `ℚ`. -/
theorem symmetry_invariant (uR uL : ℚ) (fuel : ℕ) (hvolt : uR = uL) :
    ∀ r ∈ drone_sim uR uL fuel, r.2.right = r.2.left ∧ r.2.drone.q = 0 := by
  intro r hr
  rcases List.mem_cons.mp hr with h1 | h2
  · rw [h1]
    exact ⟨by simp [init_state, hvolt], rfl⟩
  · exact sim_loop_post
      (fun s => s.right = s.left ∧ s.drone.q = 0)
      (fun s => s.right = s.left ∧ s.drone.q = 0)
      (fun t s hs => ⟨step_symm t s hs.1 hs.2, step_symm t s hs.1 hs.2⟩)
      fuel 0 (init_state uR uL) ⟨by simp [init_state, hvolt], rfl⟩ r h2

/-- Witness for C7: the invariant at the initial record of a symmetric run. -/
theorem symmetry_invariant_witness :
    ((0 : ℚ), init_state 1 1).2.right = ((0 : ℚ), init_state 1 1).2.left
    ∧ ((0 : ℚ), init_state 1 1).2.drone.q = 0 :=
  symmetry_invariant 1 1 0 rfl ((0 : ℚ), init_state 1 1) (List.mem_cons_self _ _)

/-- Claim C8, corrected: the conversion factor applied to the reported
angular velocities is `60/(2·3.14159)` with the hard-coded decimal
`3.14159`, which is not exactly `60/(2π)` (the real `π` exceeds
`3.141592`). -/
theorem rpm_factor_not_two_pi : ((RADPS2RPM : ℚ) : ℝ) ≠ 60 / (2 * Real.pi) := by
  intro h
  have hpi := Real.pi_gt_d6
  have hne : Real.pi ≠ 0 := Real.pi_ne_zero
  have h1 : ((RADPS2RPM : ℚ) : ℝ) = 3000000 / 314159 := by norm_num [RADPS2RPM]
  rw [h1] at h
  have h2 : Real.pi = 314159 / 100000 := by
    field_simp at h
    linarith
  rw [h2] at hpi
  norm_num at hpi

/-- Claim C8 (amended): every emitted record reports each motor's
angular velocity multiplied by the factor `60/(2·3.14159)` — `3.14159`
being the source's hard-coded approximation of π — while time, the
currents, drone rate and attitude are emitted unconverted. -/
theorem rpm_conversion_factor (t : ℚ) (mR mL : motor_t) (d : drone_t) :
    print_state t mR mL d
      = [t, mR.i, mL.i, mR.omega * (60 / (2 * (314159 / 100000 : ℚ))),
         mL.omega * (60 / (2 * (314159 / 100000 : ℚ))), d.q, d.theta] := by
  norm_num [print_state, RADPS2RPM]

/-- Claim C9: a step never writes the applied voltages — `u` survives
each step unchanged and each step's snapshot `u_` is the value of `u` at
the start of the step — so along the whole run every record carries the
initial voltages, and in every loop record the snapshot voltage used by
that step equals the initial voltage. -/
theorem applied_voltage_frame (uR uL : ℚ) (fuel : ℕ) :
    (∀ t s, (sim_step t s).right.u = s.right.u ∧ (sim_step t s).left.u = s.left.u
          ∧ (sim_step t s).right.u_ = s.right.u ∧ (sim_step t s).left.u_ = s.left.u)
    ∧ (∀ r ∈ drone_sim uR uL fuel, r.2.right.u = uR ∧ r.2.left.u = uL)
    ∧ (∀ r ∈ sim_loop fuel 0 (init_state uR uL),
        r.2.right.u_ = uR ∧ r.2.left.u_ = uL) := by
  refine ⟨fun t s => ⟨rfl, rfl, rfl, rfl⟩, ?_, ?_⟩
  · intro r hr
    rcases List.mem_cons.mp hr with h1 | h2
    · rw [h1]; exact ⟨rfl, rfl⟩
    · exact sim_loop_post
        (fun s => s.right.u = uR ∧ s.left.u = uL)
        (fun s => s.right.u = uR ∧ s.left.u = uL)
        (fun t s hs => ⟨hs, hs⟩)
        fuel 0 (init_state uR uL) ⟨rfl, rfl⟩ r h2
  · exact sim_loop_post
      (fun s => s.right.u = uR ∧ s.left.u = uL)
      (fun s => s.right.u_ = uR ∧ s.left.u_ = uL)
      (fun t s hs => ⟨hs, hs⟩)
      fuel 0 (init_state uR uL) ⟨rfl, rfl⟩

/-- Witness for C9: the initial record of the nominal run keeps both
configured voltages. -/
theorem applied_voltage_frame_witness :
    ((0 : ℚ), init_state (75/10) (74/10)).2.right.u = 75/10
    ∧ ((0 : ℚ), init_state (75/10) (74/10)).2.left.u = 74/10 :=
  (applied_voltage_frame (75/10) (74/10) 0).2.1
    ((0 : ℚ), init_state (75/10) (74/10)) (List.mem_cons_self _ _)

/-- Claim C10: `q_dot` and `theta_dot` ignore their own state and time,
so every `rk4` stage coincides and the drone update degenerates to one
Euler step, exactly: for any state, step size and auxiliaries,
`rk4 q_dot x t h [a, b] = x + h·(Ct a² − Ct b²)·lcpt/Jcpt` and
`rk4 theta_dot x t h [c] = x + h·c`; consequently each simulation step
updates `q` and `theta` by one Euler step from the snapshot values. -/
theorem drone_euler_step (t h x a b c : ℚ) (s : SimState) :
    rk4 q_dot x t h [a, b] = x + h * ((Ct * a^2 - Ct * b^2) * lcpt / Jcpt)
    ∧ rk4 theta_dot x t h [c] = x + h * c
    ∧ (sim_step t s).drone.q
        = s.drone.q + hstep * ((Ct * s.right.omega^2 - Ct * s.left.omega^2) * lcpt / Jcpt)
    ∧ (sim_step t s).drone.theta = s.drone.theta + hstep * s.drone.q := by
  refine ⟨?_, ?_, ?_, ?_⟩
  · simp [rk4, q_dot]; ring
  · simp [rk4, theta_dot]; ring
  · show rk4 q_dot s.drone.q t hstep [s.right.omega, s.left.omega] = _
    simp [rk4, q_dot]; ring
  · show rk4 theta_dot s.drone.theta t hstep [s.drone.q] = _
    simp [rk4, theta_dot]; ring

end DroneSim
